import Mathlib

/-!
# Verification of the PotaHunter relay server

Shallow embedding of the protocol-translation relay:
frame codec for the binary TCP protocol (build / parse / accumulate),
the HTTP orchestrator's error handling and lifecycle state machine,
the band-lookup table, the ADIF record builders, and the minimal
XML-RPC response parser.

Bytes are modelled as natural numbers below 256; JS strings are
modelled as lists of UTF-16 code units (naturals below 65536) where
the byte-level encoding matters, and as Lean `String`s elsewhere.
-/

namespace PotaRelay

/-! ## Frame codec (HRD v5 binary protocol) -/

/-- Protocol magic constant 1 (`0x1234ABCD`). -/
def MAGIC1 : Nat := 0x1234ABCD

/-- Protocol magic constant 2 (`0xABCD1234`). -/
def MAGIC2 : Nat := 0xABCD1234

/-- Little-endian 32-bit encoding of a natural number (low byte first),
as written by `writeUInt32LE`. -/
def u32le (n : Nat) : List Nat :=
  [n % 256, n / 256 % 256, n / 65536 % 256, n / 16777216 % 256]

/-- `buffer.readUInt32LE(off)`: little-endian 32-bit read at byte offset
`off` (missing bytes read as 0, matching use sites where the bound is
checked beforehand). -/
def readUInt32LE (b : List Nat) (off : Nat) : Nat :=
  b.getD off 0 + 256 * b.getD (off + 1) 0 +
    65536 * b.getD (off + 2) 0 + 16777216 * b.getD (off + 3) 0

/-- `Buffer.from(text, 'utf16le')`: each UTF-16 code unit becomes two
bytes, low byte first. -/
def encodeUtf16le (units : List Nat) : List Nat :=
  units.flatMap fun u => [u % 256, u / 256]

/-- `buffer.toString('utf16le')`: consecutive byte pairs become code
units (a trailing odd byte is dropped, as Node does). -/
def decodeUtf16le : List Nat → List Nat
  | b0 :: b1 :: rest => (b0 + 256 * b1) :: decodeUtf16le rest
  | _ => []

/-- Code units of the 4-character context marker `"[0] "`. -/
def ctxMarker : List Nat := [91, 48, 93, 32]

/-- `buildHRDFrame(command, prependContext)`: payload is the optional
context marker, the command and one trailing NUL code unit, encoded
UTF-16LE; 16-byte header is size, magic1, magic2, checksum 0, all
u32LE.  `writeUInt32LE` throws when the size does not fit in 32 bits,
modelled as `none`. -/
def buildHRDFrame (command : List Nat) (prependContext : Bool) : Option (List Nat) :=
  let payloadText := (if prependContext then ctxMarker ++ command else command) ++ [0]
  let payload := encodeUtf16le payloadText
  let size := 16 + payload.length
  if size < 4294967296 then
    some (u32le size ++ u32le MAGIC1 ++ u32le MAGIC2 ++ u32le 0 ++ payload)
  else
    none

/-- The three failure strings of `parseHRDResponse`. -/
inductive FrameError where
  | tooShort
  | magicMismatch
  | incomplete
  deriving DecidableEq, Repr

/-- `parseHRDResponse(buffer)`: reject buffers shorter than 16 bytes,
check both magics as unsigned 32-bit values, reject when the declared
size exceeds the buffer length, then decode bytes 16..size as UTF-16LE
and truncate at the first NUL code unit. -/
def parseHRDResponse (buffer : List Nat) : Except FrameError (List Nat) :=
  if buffer.length < 16 then
    .error .tooShort
  else
    let size := readUInt32LE buffer 0
    let magic1 := readUInt32LE buffer 4
    let magic2 := readUInt32LE buffer 8
    if magic1 ≠ MAGIC1 ∨ magic2 ≠ MAGIC2 then
      .error .magicMismatch
    else if buffer.length < size then
      .error .incomplete
    else
      let payload := (buffer.drop 16).take (size - 16)
      let text := decodeUtf16le payload
      .ok (text.takeWhile (· ≠ 0))

/-! ### Codec helper lemmas -/

theorem readUInt32LE_u32le_append (n : Nat) (rest : List Nat) :
    readUInt32LE (u32le n ++ rest) 0 = n % 4294967296 := by
  simp only [u32le, readUInt32LE, List.cons_append, List.nil_append,
    List.getD_cons_zero, List.getD_cons_succ]
  omega

theorem decodeUtf16le_encodeUtf16le (us : List Nat) (h : ∀ u ∈ us, u < 65536) :
    decodeUtf16le (encodeUtf16le us) = us := by
  induction us with
  | nil => rfl
  | cons u rest ih =>
    have hu : u < 65536 := h u (by simp)
    have hrest : ∀ v ∈ rest, v < 65536 := fun v hv => h v (by simp [hv])
    simp only [encodeUtf16le, List.flatMap_cons] at *
    show decodeUtf16le (u % 256 :: u / 256 :: rest.flatMap _) = u :: rest
    simp only [decodeUtf16le]
    rw [ih hrest]
    congr 1
    omega

theorem takeWhile_ne_append_zero (c : List Nat) (h : ∀ u ∈ c, u ≠ 0) :
    (c ++ [0]).takeWhile (· ≠ 0) = c := by
  induction c with
  | nil => simp [List.takeWhile]
  | cons u rest ih =>
    have hu : u ≠ 0 := h u (by simp)
    have hrest : ∀ v ∈ rest, v ≠ 0 := fun v hv => h v (by simp [hv])
    have ih2 := ih hrest
    simp only [List.cons_append, List.takeWhile_cons, ne_eq, decide_not] at ih2 ⊢
    simp [hu, ih2]

theorem encodeUtf16le_length (us : List Nat) :
    (encodeUtf16le us).length = 2 * us.length := by
  induction us with
  | nil => rfl
  | cons u rest ih =>
    simp only [encodeUtf16le, List.flatMap_cons] at *
    show (u % 256 :: u / 256 :: rest.flatMap _).length = _
    simp only [List.length_cons, List.length_cons]
    rw [show (rest.flatMap (fun u => [u % 256, u / 256])).length = 2 * rest.length from ih]
    omega

theorem u32le_MAGIC1 : u32le MAGIC1 = [205, 171, 52, 18] := by decide

theorem u32le_MAGIC2 : u32le MAGIC2 = [52, 18, 205, 171] := by decide

theorem u32le_zero : u32le 0 = [0, 0, 0, 0] := by decide

theorem buildHRDFrame_eq (c : List Nat) (pre : Bool) (buf : List Nat)
    (hbuild : buildHRDFrame c pre = some buf) :
    buf = u32le (16 + (encodeUtf16le ((if pre then ctxMarker ++ c else c) ++ [0])).length) ++
        (u32le MAGIC1 ++ (u32le MAGIC2 ++
          (u32le 0 ++ encodeUtf16le ((if pre then ctxMarker ++ c else c) ++ [0])))) ∧
      16 + (encodeUtf16le ((if pre then ctxMarker ++ c else c) ++ [0])).length < 4294967296 := by
  simp only [buildHRDFrame] at hbuild
  by_cases hsz : 16 + (encodeUtf16le ((if pre = true then ctxMarker ++ c else c) ++ [0])).length
      < 4294967296
  · rw [if_pos hsz] at hbuild
    refine ⟨?_, hsz⟩
    simp only [Option.some.injEq] at hbuild
    rw [← hbuild]
    simp [List.append_assoc]
  · rw [if_neg hsz] at hbuild
    exact absurd hbuild (by simp)

/-- **C1** Frame codec round-trip: for every command string without
embedded NUL code units, building a frame with no context marker and
parsing the resulting buffer succeeds and returns exactly the command
text. -/
theorem frame_roundtrip (c : List Nat) (hval : ∀ u ∈ c, u < 65536)
    (hnul : ∀ u ∈ c, u ≠ 0) (buf : List Nat)
    (hbuild : buildHRDFrame c false = some buf) :
    parseHRDResponse buf = .ok c := by
  obtain ⟨hbuf, hsz⟩ := buildHRDFrame_eq c false buf hbuild
  simp only [Bool.false_eq_true, if_false] at hbuf hsz
  rw [u32le_MAGIC1, u32le_MAGIC2, u32le_zero] at hbuf
  simp only [u32le, List.cons_append, List.nil_append] at hbuf
  set L := (encodeUtf16le (c ++ [0])).length with hL
  have hlen : buf.length = 16 + L := by
    rw [hbuf]
    simp only [List.length_cons, List.length_append]
    omega
  have h0 : readUInt32LE buf 0 = 16 + L := by
    rw [hbuf]
    simp only [readUInt32LE, List.getD_cons_succ, List.getD_cons_zero]
    omega
  have h4 : readUInt32LE buf 4 = MAGIC1 := by
    rw [hbuf]
    simp only [readUInt32LE, List.getD_cons_succ, List.getD_cons_zero, MAGIC1]
  have h8 : readUInt32LE buf 8 = MAGIC2 := by
    rw [hbuf]
    simp only [readUInt32LE, List.getD_cons_succ, List.getD_cons_zero, MAGIC2]
  have hdrop : buf.drop 16 = encodeUtf16le (c ++ [0]) := by
    rw [hbuf]
    simp only [List.drop_succ_cons, List.drop_zero]
  simp only [parseHRDResponse, h0, h4, h8, hlen]
  rw [if_neg (by omega), if_neg (by simp), if_neg (by omega)]
  have htake : 16 + L - 16 = L := by omega
  rw [hdrop, htake, hL, List.take_length]
  rw [decodeUtf16le_encodeUtf16le (c ++ [0]) ?hv]
  case hv =>
    intro u hu
    rcases List.mem_append.mp hu with h | h
    · exact hval u h
    · simp at h; omega
  rw [takeWhile_ne_append_zero c hnul]

/-- Witness for C1 at the command "hi" (code units 104, 105). -/
theorem frame_roundtrip_witness :
    parseHRDResponse [22, 0, 0, 0, 205, 171, 52, 18, 52, 18, 205, 171, 0, 0, 0, 0,
      104, 0, 105, 0, 0, 0] = .ok [104, 105] :=
  frame_roundtrip [104, 105] (by decide) (by decide) _ (by decide)

/-- **C4** Frame size-field correctness: for every command and either
value of the context flag, the declared u32LE size field of the built
frame equals the actual byte length of the buffer, which is 16 plus
the byte length of the UTF-16LE payload. -/
theorem build_size_field (c : List Nat) (pre : Bool) (buf : List Nat)
    (hbuild : buildHRDFrame c pre = some buf) :
    readUInt32LE buf 0 = buf.length ∧
    buf.length =
      16 + (encodeUtf16le ((if pre then ctxMarker ++ c else c) ++ [0])).length := by
  obtain ⟨hbuf, hsz⟩ := buildHRDFrame_eq c pre buf hbuild
  have hlen : buf.length =
      16 + (encodeUtf16le ((if pre then ctxMarker ++ c else c) ++ [0])).length := by
    rw [hbuf]
    simp only [u32le, List.cons_append, List.nil_append, List.length_cons,
      List.length_append]
    omega
  refine ⟨?_, hlen⟩
  rw [hbuf, readUInt32LE_u32le_append, ← hbuf, hlen]
  omega

/-- Witness for C4 at the command "hi" with the context marker set. -/
theorem build_size_field_witness :
    readUInt32LE [30, 0, 0, 0, 205, 171, 52, 18, 52, 18, 205, 171, 0, 0, 0, 0,
        91, 0, 48, 0, 93, 0, 32, 0, 104, 0, 105, 0, 0, 0] 0 =
      [30, 0, 0, 0, 205, 171, 52, 18, 52, 18, 205, 171, 0, 0, 0, 0,
        91, 0, 48, 0, 93, 0, 32, 0, 104, 0, 105, 0, 0, 0].length ∧
    [30, 0, 0, 0, 205, 171, 52, 18, 52, 18, 205, 171, 0, 0, 0, 0,
        91, 0, 48, 0, 93, 0, 32, 0, 104, 0, 105, 0, 0, 0].length =
      16 + (encodeUtf16le ((if true then ctxMarker ++ [104, 105] else [104, 105]) ++ [0])).length :=
  build_size_field [104, 105] true
    [30, 0, 0, 0, 205, 171, 52, 18, 52, 18, 205, 171, 0, 0, 0, 0,
      91, 0, 48, 0, 93, 0, 32, 0, 104, 0, 105, 0, 0, 0] (by decide)

/-- **C3** parseFrame failure taxonomy: any buffer under 16 bytes fails
with TooShort; any buffer of at least 16 bytes with either magic field
wrong fails with MagicMismatch regardless of payload content; any
buffer with correct magics whose declared size exceeds the buffer
length fails with Incomplete. -/
theorem parse_failure_taxonomy (buf : List Nat) :
    (buf.length < 16 → parseHRDResponse buf = .error .tooShort) ∧
    (16 ≤ buf.length →
      (readUInt32LE buf 4 ≠ MAGIC1 ∨ readUInt32LE buf 8 ≠ MAGIC2) →
      parseHRDResponse buf = .error .magicMismatch) ∧
    (16 ≤ buf.length → readUInt32LE buf 4 = MAGIC1 → readUInt32LE buf 8 = MAGIC2 →
      buf.length < readUInt32LE buf 0 →
      parseHRDResponse buf = .error .incomplete) := by
  refine ⟨fun h => ?_, fun h16 hm => ?_, fun h16 hm1 hm2 hsz => ?_⟩
  · simp [parseHRDResponse, h]
  · simp only [parseHRDResponse]
    rw [if_neg (by omega), if_pos hm]
  · simp only [parseHRDResponse]
    rw [if_neg (by omega), if_neg (by simp [hm1, hm2]), if_pos hsz]

/-- Witness for C3: a 3-byte buffer, a 16-byte all-zero buffer, and a
16-byte buffer with correct magics declaring size 255. -/
theorem parse_failure_taxonomy_witness :
    parseHRDResponse [1, 2, 3] = .error .tooShort ∧
    parseHRDResponse [0, 0, 0, 0, 0, 0, 0, 0, 0, 0, 0, 0, 0, 0, 0, 0] =
      .error .magicMismatch ∧
    parseHRDResponse [255, 0, 0, 0, 205, 171, 52, 18, 52, 18, 205, 171, 0, 0, 0, 0] =
      .error .incomplete :=
  ⟨(parse_failure_taxonomy [1, 2, 3]).1 (by decide),
   (parse_failure_taxonomy [0, 0, 0, 0, 0, 0, 0, 0, 0, 0, 0, 0, 0, 0, 0, 0]).2.1
     (by decide) (by decide),
   (parse_failure_taxonomy
       [255, 0, 0, 0, 205, 171, 52, 18, 52, 18, 205, 171, 0, 0, 0, 0]).2.2
     (by decide) (by decide) (by decide) (by decide)⟩

/-- **C10** A buffer of at least 16 bytes with correct magics whose
declared size is below 16 is not rejected: parseHRDResponse succeeds
and returns the empty string (the slice from 16 to size is empty). -/
theorem parse_accepts_size_below_header (buf : List Nat) (h16 : 16 ≤ buf.length)
    (hm1 : readUInt32LE buf 4 = MAGIC1) (hm2 : readUInt32LE buf 8 = MAGIC2)
    (hsz : readUInt32LE buf 0 < 16) :
    parseHRDResponse buf = .ok [] := by
  simp only [parseHRDResponse]
  rw [if_neg (by omega), if_neg (by simp [hm1, hm2]), if_neg (by omega)]
  have h0 : readUInt32LE buf 0 - 16 = 0 := by omega
  rw [h0]
  simp [decodeUtf16le]

/-- Witness for C10: a 16-byte header-only buffer declaring size 5. -/
theorem parse_accepts_size_below_header_witness :
    parseHRDResponse [5, 0, 0, 0, 205, 171, 52, 18, 52, 18, 205, 171, 0, 0, 0, 0] =
      .ok [] :=
  parse_accepts_size_below_header
    [5, 0, 0, 0, 205, 171, 52, 18, 52, 18, 205, 171, 0, 0, 0, 0]
    (by decide) (by decide) (by decide) (by decide)

/-! ## Response accumulation (readHRDResponse) -/

/-- One `data` event of `readHRDResponse`: append the chunk to the
buffer; once at least 16 bytes are buffered and the buffer has reached
the declared size, resolve with the first `declared size` bytes;
otherwise keep waiting.  An exhausted chunk list models the timeout
path (`none`). -/
def readHRDAccum (buffer : List Nat) : List (List Nat) → Option (List Nat)
  | [] => none
  | chunk :: rest =>
    let b2 := buffer ++ chunk
    if 16 ≤ b2.length ∧ readUInt32LE b2 0 ≤ b2.length then
      some (b2.take (readUInt32LE b2 0))
    else
      readHRDAccum b2 rest

/-- `readHRDResponse(socket)` as a function of the sequence of chunks
delivered by the socket, starting from the empty buffer. -/
def readHRDResponse (chunks : List (List Nat)) : Option (List Nat) :=
  readHRDAccum [] chunks

theorem readUInt32LE_of_prefix (b t : List Nat) (h : 4 ≤ b.length) :
    readUInt32LE (b ++ t) 0 = readUInt32LE b 0 := by
  simp only [readUInt32LE]
  rw [List.getD_append b t 0 0 (by omega), List.getD_append b t 0 1 (by omega),
    List.getD_append b t 0 2 (by omega), List.getD_append b t 0 3 (by omega)]

theorem readHRDAccum_resolves (f : List Nat) (h16 : 16 ≤ f.length)
    (hsz : readUInt32LE f 0 ≤ f.length) :
    ∀ (chunks : List (List Nat)) (b : List Nat),
      b ++ chunks.flatten = f →
      ¬(16 ≤ b.length ∧ readUInt32LE b 0 ≤ b.length) →
      readHRDAccum b chunks = some (f.take (readUInt32LE f 0)) := by
  intro chunks
  induction chunks with
  | nil =>
    intro b hjoin hcond
    simp only [List.flatten_nil, List.append_nil] at hjoin
    subst hjoin
    exact absurd ⟨h16, hsz⟩ hcond
  | cons chunk rest ih =>
    intro b hjoin hcond
    simp only [List.flatten_cons] at hjoin
    rw [← List.append_assoc] at hjoin
    subst hjoin
    simp only [readHRDAccum]
    by_cases hres : 16 ≤ (b ++ chunk).length ∧
        readUInt32LE (b ++ chunk) 0 ≤ (b ++ chunk).length
    · rw [if_pos hres]
      have hread : readUInt32LE (b ++ chunk ++ rest.flatten) 0 =
          readUInt32LE (b ++ chunk) 0 :=
        readUInt32LE_of_prefix (b ++ chunk) rest.flatten
          (by have := hres.1; omega)
      rw [hread, List.take_append_of_le_length hres.2]
    · rw [if_neg hres]
      exact ih (b ++ chunk) rfl hres

/-- **C2** Response accumulation is delivery-order independent: for a
well-formed frame (at least 16 bytes, declared size within the frame),
any split of the frame into chunks yields the same resolved byte
sequence as the single-read delivery, namely the first `declared size`
bytes of the frame. -/
theorem accumulate_chunking_independent (f : List Nat) (chunks : List (List Nat))
    (h16 : 16 ≤ f.length) (hsz : readUInt32LE f 0 ≤ f.length)
    (hjoin : chunks.flatten = f) :
    readHRDResponse chunks = readHRDResponse [f] ∧
    readHRDResponse [f] = some (f.take (readUInt32LE f 0)) := by
  have hsingle : readHRDResponse [f] = some (f.take (readUInt32LE f 0)) := by
    simp only [readHRDResponse, readHRDAccum, List.nil_append]
    rw [if_pos ⟨h16, hsz⟩]
  refine ⟨?_, hsingle⟩
  rw [hsingle]
  exact readHRDAccum_resolves f h16 hsz chunks []
    (by simpa using hjoin) (by simp)

/-- Witness for C2: a 22-byte frame delivered in three chunks, the
header itself split across the first two. -/
theorem accumulate_chunking_independent_witness :
    readHRDResponse [[22, 0, 0, 0, 205, 171], [52, 18, 52, 18, 205, 171, 0, 0],
        [0, 0, 104, 0, 105, 0, 0, 0]] =
      readHRDResponse [[22, 0, 0, 0, 205, 171, 52, 18, 52, 18, 205, 171, 0, 0, 0, 0,
        104, 0, 105, 0, 0, 0]] ∧
    readHRDResponse [[22, 0, 0, 0, 205, 171, 52, 18, 52, 18, 205, 171, 0, 0, 0, 0,
        104, 0, 105, 0, 0, 0]] =
      some ([22, 0, 0, 0, 205, 171, 52, 18, 52, 18, 205, 171, 0, 0, 0, 0,
        104, 0, 105, 0, 0, 0].take
          (readUInt32LE [22, 0, 0, 0, 205, 171, 52, 18, 52, 18, 205, 171, 0, 0, 0, 0,
            104, 0, 105, 0, 0, 0] 0)) :=
  accumulate_chunking_independent
    [22, 0, 0, 0, 205, 171, 52, 18, 52, 18, 205, 171, 0, 0, 0, 0, 104, 0, 105, 0, 0, 0]
    [[22, 0, 0, 0, 205, 171], [52, 18, 52, 18, 205, 171, 0, 0], [0, 0, 104, 0, 105, 0, 0, 0]]
    (by decide) (by decide) (by decide)

/-! ## Relay orchestrator: request handlers

The HTTP and socket I/O is abstracted: a backend call's outcome is an
explicit `BackendResult` argument, and the handler is a pure function
from the configured mode, the request fields and the backend outcomes
to the HTTP response and the updated stats. -/

/-- Outcome of one backend call (TCP command round trip, XML-RPC call
or UDP send): the resolved text, or the rejection message. -/
inductive BackendResult where
  | ok (response : String)
  | fail (message : String)
  deriving DecidableEq

/-- The orchestrator's `stats` record. -/
structure ServerStats where
  requestCount : Nat
  errorCount : Nat
  lastRequest : Option String
  startTime : Option String
  deriving DecidableEq

/-- An HTTP response as written by the handlers: status code plus the
`success` and `message` fields of the JSON body. -/
structure HttpReply where
  status : Nat
  success : Bool
  message : String
  deriving DecidableEq

/-- `handleFrequencyRequest` after the body has been parsed: dispatch
on `config.radioControl`; the `hrd` and `flrig` branches issue two
sequential backend calls (`set frequency-hz`, `set mode`) and fail as
soon as one rejects; every error lands in the catch block, which
increments the error counter and still writes HTTP 200 with a
`success:false` JSON body.  `freqDisplay` stands for the formatted
`(frequency / 1000000).toFixed(6)` string. -/
def handleFrequencyRequest (radioControl freqDisplay mode : String)
    (cmd1 cmd2 : BackendResult) (stats : ServerStats) : HttpReply × ServerStats :=
  if radioControl = "none" then
    (⟨200, true, "Logged: " ++ freqDisplay ++ " MHz " ++ mode ++ " (no radio control)"⟩,
      stats)
  else if radioControl = "hrd" ∨ radioControl = "flrig" then
    match cmd1 with
    | .fail e =>
      (⟨200, false, "Error: " ++ e⟩, { stats with errorCount := stats.errorCount + 1 })
    | .ok _ =>
      match cmd2 with
      | .fail e =>
        (⟨200, false, "Error: " ++ e⟩, { stats with errorCount := stats.errorCount + 1 })
      | .ok _ =>
        (⟨200, true, "Tuned to " ++ freqDisplay ++ " MHz " ++ mode⟩, stats)
  else
    (⟨200, false, "Error: Unknown radio control mode"⟩,
      { stats with errorCount := stats.errorCount + 1 })

/-- `handleLogRequest` after the body has been parsed: dispatch on
`config.loggingMode`; the `hrd` branch sends the ADIF record over UDP
and the `n1mm` branch calls `sendContact`; a send failure increments
the error counter and still writes HTTP 200 with `success:false`. -/
def handleLogRequest (loggingMode : String) (send : BackendResult)
    (stats : ServerStats) : HttpReply × ServerStats :=
  if loggingMode = "none" then
    (⟨200, true, "Logging disabled"⟩, stats)
  else if loggingMode = "hrd" then
    match send with
    | .fail e =>
      (⟨200, false, "HRD UDP error: " ++ e⟩,
        { stats with errorCount := stats.errorCount + 1 })
    | .ok _ => (⟨200, true, "QSO logged to HRD Logbook"⟩, stats)
  else if loggingMode = "n1mm" then
    match send with
    | .fail e =>
      (⟨200, false, "N1MM error: " ++ e⟩,
        { stats with errorCount := stats.errorCount + 1 })
    | .ok _ => (⟨200, true, "QSO logged to N1MM Logger+"⟩, stats)
  else
    (⟨200, false, "Error: Unknown logging mode"⟩,
      { stats with errorCount := stats.errorCount + 1 })

theorem append_msg_ne_empty (s t : String) (hs : 0 < s.length) : s ++ t ≠ "" := by
  intro h
  have h2 := congrArg String.length h
  rw [String.length_append] at h2
  simp at h2
  omega

/-- **C5** Error responses stay at HTTP 200 with a JSON body: when a
configured radio-control or logging backend fails, the handlers
increment the error counter and answer HTTP 200 with
`success:false` and a non-empty message; moreover the handlers answer
status 200 for every outcome, never a non-200 status. -/
theorem backend_failure_stays_http200
    (rc lm freqDisplay mode e : String) (c1 c2 : BackendResult) (stats : ServerStats)
    (hrc : rc = "hrd" ∨ rc = "flrig") (hlm : lm = "hrd" ∨ lm = "n1mm")
    (hfail : c1 = .fail e ∨ (∃ r, c1 = .ok r) ∧ c2 = .fail e) :
    ((handleFrequencyRequest rc freqDisplay mode c1 c2 stats).1.status = 200 ∧
     (handleFrequencyRequest rc freqDisplay mode c1 c2 stats).1.success = false ∧
     (handleFrequencyRequest rc freqDisplay mode c1 c2 stats).1.message ≠ "" ∧
     (handleFrequencyRequest rc freqDisplay mode c1 c2 stats).2.errorCount =
       stats.errorCount + 1) ∧
    ((handleLogRequest lm (.fail e) stats).1.status = 200 ∧
     (handleLogRequest lm (.fail e) stats).1.success = false ∧
     (handleLogRequest lm (.fail e) stats).1.message ≠ "" ∧
     (handleLogRequest lm (.fail e) stats).2.errorCount = stats.errorCount + 1) ∧
    (∀ (rc2 md fd : String) (d1 d2 : BackendResult),
      (handleFrequencyRequest rc2 fd md d1 d2 stats).1.status = 200) ∧
    (∀ (lm2 : String) (d : BackendResult),
      (handleLogRequest lm2 d stats).1.status = 200) := by
  have hrcne : rc ≠ "none" := by rcases hrc with h | h <;> simp [h]
  have hlmne : lm ≠ "none" := by rcases hlm with h | h <;> simp [h]
  refine ⟨?_, ?_, ?_, ?_⟩
  · simp only [handleFrequencyRequest, if_neg hrcne, if_pos hrc]
    rcases hfail with h1 | ⟨⟨r, hr⟩, h2⟩
    · subst h1
      refine ⟨rfl, rfl, append_msg_ne_empty _ _ (by decide), rfl⟩
    · subst hr; subst h2
      refine ⟨rfl, rfl, append_msg_ne_empty _ _ (by decide), rfl⟩
  · simp only [handleLogRequest, if_neg hlmne]
    rcases hlm with h | h
    · subst h
      simp only [if_pos rfl]
      refine ⟨rfl, rfl, append_msg_ne_empty _ _ (by decide), rfl⟩
    · subst h
      rw [if_neg (by simp)]
      simp only [if_pos rfl]
      refine ⟨rfl, rfl, append_msg_ne_empty _ _ (by decide), rfl⟩
  · intro rc2 md fd d1 d2
    simp only [handleFrequencyRequest]
    split
    · rfl
    · split
      · rcases d1 with _ | _
        · rcases d2 with _ | _ <;> rfl
        · rfl
      · rfl
  · intro lm2 d
    simp only [handleLogRequest]
    split
    · rfl
    · split
      · rcases d with _ | _ <;> rfl
      · split
        · rcases d with _ | _ <;> rfl
        · rfl

/-- Witness for C5: HRD control and HRD logging with a refused
connection on the first command. -/
theorem backend_failure_stays_http200_witness :
    ((handleFrequencyRequest "hrd" "14.285000" "USB" (.fail "connect ECONNREFUSED")
        (.ok "OK") ⟨3, 1, none, none⟩).1.status = 200 ∧
     (handleFrequencyRequest "hrd" "14.285000" "USB" (.fail "connect ECONNREFUSED")
        (.ok "OK") ⟨3, 1, none, none⟩).1.success = false ∧
     (handleFrequencyRequest "hrd" "14.285000" "USB" (.fail "connect ECONNREFUSED")
        (.ok "OK") ⟨3, 1, none, none⟩).1.message ≠ "" ∧
     (handleFrequencyRequest "hrd" "14.285000" "USB" (.fail "connect ECONNREFUSED")
        (.ok "OK") ⟨3, 1, none, none⟩).2.errorCount = (1 : Nat) + 1) ∧
    ((handleLogRequest "hrd" (.fail "connect ECONNREFUSED") ⟨3, 1, none, none⟩).1.status
        = 200 ∧
     (handleLogRequest "hrd" (.fail "connect ECONNREFUSED") ⟨3, 1, none, none⟩).1.success
        = false ∧
     (handleLogRequest "hrd" (.fail "connect ECONNREFUSED") ⟨3, 1, none, none⟩).1.message
        ≠ "" ∧
     (handleLogRequest "hrd" (.fail "connect ECONNREFUSED") ⟨3, 1, none, none⟩).2.errorCount
        = (1 : Nat) + 1) ∧
    (∀ (rc2 md fd : String) (d1 d2 : BackendResult),
      (handleFrequencyRequest rc2 fd md d1 d2 ⟨3, 1, none, none⟩).1.status = 200) ∧
    (∀ (lm2 : String) (d : BackendResult),
      (handleLogRequest lm2 d ⟨3, 1, none, none⟩).1.status = 200) :=
  backend_failure_stays_http200 "hrd" "hrd" "14.285000" "USB" "connect ECONNREFUSED"
    (.fail "connect ECONNREFUSED") (.ok "OK") ⟨3, 1, none, none⟩
    (Or.inl rfl) (Or.inl rfl) (Or.inl rfl)

/-! ## Relay orchestrator: lifecycle -/

/-- The status events emitted by the server. -/
inductive ServerEvent where
  | started
  | stopped
  deriving DecidableEq

/-- The lifecycle-relevant part of a `RelayServer` instance. -/
structure RelayState where
  isRunning : Bool
  startTime : Option String
  events : List ServerEvent
  deriving DecidableEq

/-- Outcome of binding the HTTP listener. -/
inductive BindOutcome where
  | success
  | failure (message : String)
  deriving DecidableEq

/-- `start()`: reject when already running; on bind failure reject with
the bind error and leave the state unchanged; on bind success set
`isRunning`, record `stats.startTime` and emit the `started` event. -/
def startServer (s : RelayState) (now : String) (bind : BindOutcome) :
    Except String RelayState :=
  if s.isRunning then
    .error "Server already running"
  else
    match bind with
    | .success =>
      .ok { isRunning := true, startTime := some now, events := s.events ++ [.started] }
    | .failure m => .error m

/-- `stop()`: reject when not running; otherwise close the listener,
clear `isRunning` and emit the `stopped` event. -/
def stopServer (s : RelayState) : Except String RelayState :=
  if s.isRunning then
    .ok { s with isRunning := false, events := s.events ++ [.stopped] }
  else
    .error "Server not running"

/-- **C6** Lifecycle state machine: `start()` rejects when already
running (whatever the bind outcome); on successful bind it records the
start timestamp, transitions to Running and emits a status event.
`stop()` rejects when not running; otherwise it transitions back to
Stopped and emits a status event. -/
theorem lifecycle_state_machine (s : RelayState) (now : String) :
    (s.isRunning = true →
      ∀ bind, startServer s now bind = .error "Server already running") ∧
    (s.isRunning = false →
      ∃ s2, startServer s now .success = .ok s2 ∧ s2.isRunning = true ∧
        s2.startTime = some now ∧ s2.events = s.events ++ [.started]) ∧
    (s.isRunning = false → stopServer s = .error "Server not running") ∧
    (s.isRunning = true →
      ∃ s2, stopServer s = .ok s2 ∧ s2.isRunning = false ∧
        s2.events = s.events ++ [.stopped]) := by
  refine ⟨fun hr bind => ?_, fun hn => ?_, fun hn => ?_, fun hr => ?_⟩
  · simp [startServer, hr]
  · refine ⟨⟨true, some now, s.events ++ [.started]⟩, ?_, rfl, rfl, rfl⟩
    simp [startServer, hn]
  · simp [stopServer, hn]
  · refine ⟨⟨false, s.startTime, s.events ++ [.stopped]⟩, ?_, rfl, rfl⟩
    simp [stopServer, hr]

/-- Witness for C6 at a concrete stopped state and a concrete running
state. -/
theorem lifecycle_state_machine_witness :
    (∃ s2, startServer ⟨false, none, []⟩ "2024-01-01T00:00:00Z" .success = .ok s2 ∧
      s2.isRunning = true ∧ s2.startTime = some "2024-01-01T00:00:00Z" ∧
      s2.events = [] ++ [.started]) ∧
    (∀ bind, startServer ⟨true, some "t0", [.started]⟩ "t1" bind =
      .error "Server already running") ∧
    stopServer ⟨false, none, []⟩ = .error "Server not running" ∧
    (∃ s2, stopServer ⟨true, some "t0", [.started]⟩ = .ok s2 ∧
      s2.isRunning = false ∧ s2.events = [.started] ++ [.stopped]) :=
  ⟨(lifecycle_state_machine ⟨false, none, []⟩ "2024-01-01T00:00:00Z").2.1 rfl,
   fun bind => (lifecycle_state_machine ⟨true, some "t0", [.started]⟩ "t1").1 rfl bind,
   (lifecycle_state_machine ⟨false, none, []⟩ "x").2.2.1 rfl,
   (lifecycle_state_machine ⟨true, some "t0", [.started]⟩ "x").2.2.2 rfl⟩

/-! ## Band lookup (N1MM logger) -/

/-- The frequency-range table of `convertFreqToBand`: band name, lower
and upper bound in MHz, in source order.  The decimal bounds are
modelled as exact rationals. -/
def bandTable : List (String × ℚ × ℚ) :=
  [("160m", 1.8, 2.0), ("80m", 3.5, 4.0), ("60m", 5.3, 5.4), ("40m", 7.0, 7.3),
   ("30m", 10.1, 10.15), ("20m", 14.0, 14.35), ("17m", 18.068, 18.168),
   ("15m", 21.0, 21.45), ("12m", 24.89, 24.99), ("10m", 28.0, 29.7),
   ("6m", 50.0, 54.0), ("2m", 144.0, 148.0), ("1.25m", 222.0, 225.0),
   ("70cm", 420.0, 450.0)]

/-- `convertFreqToBand(frequency)`: divide the Hz value by 1000000 and
return the first band whose inclusive range contains it, or the
explicit out-of-band value "OOB"; the if-chain of the source is the
first-match scan over `bandTable`. -/
def convertFreqToBand (frequency : ℚ) : String :=
  let freqMHz := frequency / 1000000
  match bandTable.find? (fun r => decide (r.2.1 ≤ freqMHz ∧ freqMHz ≤ r.2.2)) with
  | some r => r.1
  | none => "OOB"

theorem filter_length_le_one {α : Type} (p : α → Bool) (l : List α)
    (h : l.Pairwise fun a b => ¬(p a = true ∧ p b = true)) :
    (l.filter p).length ≤ 1 := by
  induction l with
  | nil => simp
  | cons a l ih =>
    rw [List.pairwise_cons] at h
    by_cases hpa : p a = true
    · rw [List.filter_cons_of_pos hpa]
      have hnone : l.filter p = [] := by
        rw [List.filter_eq_nil_iff]
        intro b hb hpb
        exact h.1 b hb ⟨hpa, hpb⟩
      simp [hnone]
    · rw [List.filter_cons_of_neg hpa]
      exact ih h.2

/-- **C7** Band lookup is total (a plain function returning the
explicit value "OOB" outside every range, never an exception), its
ranges are mutually exclusive (at most one table row matches any
frequency), 14100000 Hz maps to "20m", 7200000 Hz to "40m", and
12000000 Hz to "OOB". -/
theorem band_lookup_total_exclusive :
    (∀ f : ℚ, (bandTable.filter fun r =>
        decide (r.2.1 ≤ f / 1000000 ∧ f / 1000000 ≤ r.2.2)).length ≤ 1) ∧
    convertFreqToBand 14100000 = "20m" ∧
    convertFreqToBand 7200000 = "40m" ∧
    convertFreqToBand 12000000 = "OOB" := by
  refine ⟨fun f => ?_, ?_, ?_, ?_⟩
  · have hpw : bandTable.Pairwise (fun r s => r.2.2 < s.2.1) := by
      norm_num [bandTable, List.pairwise_cons]
    apply filter_length_le_one
    refine hpw.imp ?_
    intro a b hab hboth
    have ha := of_decide_eq_true hboth.1
    have hb := of_decide_eq_true hboth.2
    have : f / 1000000 < f / 1000000 :=
      lt_of_le_of_lt ha.2 (lt_of_lt_of_le hab hb.1)
    exact absurd this (lt_irrefl _)
  · norm_num [convertFreqToBand, bandTable, List.find?]
  · norm_num [convertFreqToBand, bandTable, List.find?]
  · norm_num [convertFreqToBand, bandTable, List.find?]

/-! ## ADIF record builders

`natDigits` models the JS template interpolation of a number (decimal
rendering); `fieldStr` one emitted `<name:len>value` fragment;
`checkField` independently re-parses a fragment and checks that the
digits between `:` and `>` are exactly the decimal rendering of the
length of the text that follows — the length-prefix invariant. -/

/-- Decimal digit character for d below 10. -/
def digitChar (d : Nat) : Char := Char.ofNat (48 + d)

/-- Fuel-driven decimal rendering accumulator. -/
def natDigitsGo : Nat → Nat → List Char → List Char
  | 0, _, acc => acc
  | fuel + 1, n, acc =>
    if n < 10 then digitChar n :: acc
    else natDigitsGo fuel (n / 10) (digitChar (n % 10) :: acc)

/-- Decimal rendering of a natural number, as JS string interpolation
of a number produces it. -/
def natDigits (n : Nat) : List Char := natDigitsGo (n + 1) n []

/-- A field with an explicit literal length text, as the hard-coded
`<qso_date:8>` and `<time_on:6>` templates emit it. -/
def litField (name lenLit value : List Char) : List Char :=
  '<' :: (name ++ ':' :: (lenLit ++ '>' :: value))

/-- One emitted field `<name:len>value` with the length text computed
from the value. -/
def fieldStr (name value : List Char) : List Char :=
  litField name (natDigits value.length) value

/-- Independent well-formedness check of one emitted field: a `<`, a
non-empty name up to the first `:`, digits up to the first `>`, and
the digits must be exactly the decimal rendering of the length of the
remaining text. -/
def checkField (cs : List Char) : Bool :=
  match cs with
  | c :: rest =>
    c == '<' &&
    (match rest.dropWhile (fun x => x != ':') with
     | c2 :: rest2 =>
       c2 == ':' &&
       (match rest2.dropWhile (fun x => x != '>') with
        | c3 :: value =>
          c3 == '>' && !(rest.takeWhile (fun x => x != ':')).isEmpty &&
            (rest2.takeWhile (fun x => x != '>') == natDigits value.length)
        | [] => false)
     | [] => false)
  | [] => false

/-- A contact record as the orchestrator's `buildADIFString` consumes
it (all fields already strings; the optional fields are empty strings
when absent, matching JS truthiness on strings). -/
structure HRDQso where
  callsign : String
  qso_date : String
  time_on : String
  band : String
  mode : String
  frequency : String
  rst_sent : String
  rst_rcvd : String
  my_sig : String
  my_sig_info : String
  sig : String
  sig_info : String
  comment : String
  deriving DecidableEq

/-- The `fields` array pushed by the orchestrator's `buildADIFString`:
note the hard-coded length texts `8` and `6` for `qso_date` and
`time_on`, and the lowercase `<eor>` terminator. -/
def buildADIFFields (q : HRDQso) : List (List Char) :=
  [fieldStr "call".toList q.callsign.toList,
   litField "qso_date".toList ['8'] q.qso_date.toList,
   litField "time_on".toList ['6'] q.time_on.toList,
   fieldStr "band".toList q.band.toList,
   fieldStr "mode".toList q.mode.toList,
   fieldStr "freq".toList q.frequency.toList,
   fieldStr "rst_sent".toList q.rst_sent.toList,
   fieldStr "rst_rcvd".toList q.rst_rcvd.toList] ++
  (if q.my_sig ≠ "" ∧ q.my_sig_info ≠ "" then
    [fieldStr "my_sig".toList q.my_sig.toList,
     fieldStr "my_sig_info".toList q.my_sig_info.toList] else []) ++
  (if q.sig ≠ "" ∧ q.sig_info ≠ "" then
    [fieldStr "sig".toList q.sig.toList,
     fieldStr "sig_info".toList q.sig_info.toList] else []) ++
  (if q.comment ≠ "" then [fieldStr "comment".toList q.comment.toList] else []) ++
  ["<eor>".toList]

/-- `buildADIFString` is the concatenation of the pushed fields. -/
def buildADIFString (q : HRDQso) : List Char := (buildADIFFields q).flatten

/-- `addField` of the standalone relay: emit the field only when the
value is truthy (non-empty). -/
def optField (name value : String) : List (List Char) :=
  if value ≠ "" then [fieldStr name.toList value.toList] else []

/-- The fields emitted by the standalone relay's `buildADIFRecord`,
in source order; `dateStr`, `timeStr` and `freqStr` stand for the
internally computed date, time and fixed-point frequency strings. -/
def buildADIFRecordFields (callsign dateStr timeStr freqStr mode rstSent rstReceived
    myCallsign parkReference comment : String) : List (List Char) :=
  optField "CALL" callsign ++ optField "QSO_DATE" dateStr ++
  optField "TIME_ON" timeStr ++ optField "TIME_OFF" timeStr ++
  optField "FREQ" freqStr ++ optField "MODE" mode ++
  optField "RST_SENT" rstSent ++ optField "RST_RCVD" rstReceived ++
  (if myCallsign ≠ "" then
    optField "STATION_CALLSIGN" myCallsign ++ optField "OPERATOR" myCallsign else []) ++
  (if parkReference ≠ "" then
    optField "SIG" "POTA" ++ optField "SIG_INFO" parkReference else []) ++
  optField "COMMENT" comment

/-- `buildADIFRecord`: the concatenated fields followed by `<EOR>`. -/
def buildADIFRecord (callsign dateStr timeStr freqStr mode rstSent rstReceived
    myCallsign parkReference comment : String) : List Char :=
  (buildADIFRecordFields callsign dateStr timeStr freqStr mode rstSent rstReceived
    myCallsign parkReference comment).flatten ++ "<EOR>".toList

theorem natDigitsGo_mem : ∀ (fuel n : Nat) (acc : List Char) (c : Char),
    c ∈ natDigitsGo fuel n acc → (∃ d, d < 10 ∧ c = digitChar d) ∨ c ∈ acc := by
  intro fuel
  induction fuel with
  | zero => exact fun n acc c hc => Or.inr hc
  | succ fuel ih =>
    intro n acc c hc
    simp only [natDigitsGo] at hc
    split at hc
    · rename_i hlt
      rcases List.mem_cons.mp hc with h | h
      · exact Or.inl ⟨n, hlt, h⟩
      · exact Or.inr h
    · rcases ih (n / 10) (digitChar (n % 10) :: acc) c hc with h | h
      · exact Or.inl h
      · rcases List.mem_cons.mp h with h2 | h2
        · exact Or.inl ⟨n % 10, Nat.mod_lt _ (by omega), h2⟩
        · exact Or.inr h2

theorem digitChar_ne_markers (d : Nat) (hd : d < 10) :
    digitChar d ≠ '>' ∧ digitChar d ≠ ':' := by
  interval_cases d <;> exact ⟨by decide, by decide⟩

theorem natDigits_ne_gt (n : Nat) : '>' ∉ natDigits n := by
  intro hc
  rcases natDigitsGo_mem (n + 1) n [] '>' hc with ⟨d, hd, hcd⟩ | h
  · exact (digitChar_ne_markers d hd).1 hcd.symm
  · simp at h

theorem scan_to_marker (x : Char) (l t : List Char) (hx : x ∉ l) :
    (l ++ x :: t).takeWhile (fun c => c != x) = l ∧
    (l ++ x :: t).dropWhile (fun c => c != x) = x :: t := by
  induction l with
  | nil => simp [List.takeWhile_cons, List.dropWhile_cons]
  | cons a l ih =>
    have ha : a ≠ x := fun h => hx (by simp [h])
    have hx2 : x ∉ l := fun h => hx (by simp [h])
    obtain ⟨h1, h2⟩ := ih hx2
    refine ⟨?_, ?_⟩
    · simp only [List.cons_append, List.takeWhile_cons]
      simp [ha, h1]
    · simp only [List.cons_append, List.dropWhile_cons]
      simp [ha, h2]

theorem checkField_fieldStr (name value : List Char)
    (hname : name ≠ []) (hcolon : ':' ∉ name) :
    checkField (fieldStr name value) = true := by
  obtain ⟨ht1, hd1⟩ :=
    scan_to_marker ':' name (natDigits value.length ++ '>' :: value) hcolon
  obtain ⟨ht2, hd2⟩ :=
    scan_to_marker '>' (natDigits value.length) value (natDigits_ne_gt value.length)
  simp only [fieldStr, litField, checkField]
  rw [hd1]
  simp only []
  rw [hd2]
  simp only []
  rw [ht1, ht2]
  simp [hname]

theorem mem_optField (n v : String) (hn : n.toList ≠ []) (hc : ':' ∉ n.toList) :
    ∀ s ∈ optField n v, checkField s = true := by
  intro s hs
  simp only [optField] at hs
  split at hs
  · simp only [List.mem_singleton] at hs
    subst hs
    exact checkField_fieldStr _ _ hn hc
  · simp at hs

/-- C8 counterexample record: a contact whose `qso_date` has 9
characters. -/
def adifBadQso : HRDQso :=
  ⟨"K1ABC", "20240101X", "010203", "20m", "SSB", "14.1", "59", "59",
    "", "", "", "", ""⟩

/-- **C8 counterexample** The orchestrator's ADIF builder emits the
field `<qso_date:8>20240101X` for a record whose date string has 9
characters: the length text is the hard-coded 8, not the value's
actual length, so the emitted field fails the length-prefix check. -/
theorem adif_length_claim_counterexample :
    "<qso_date:8>20240101X".toList ∈ buildADIFFields adifBadQso ∧
    checkField "<qso_date:8>20240101X".toList = false ∧
    natDigits "20240101X".toList.length ≠ ['8'] := by
  refine ⟨by decide, by decide, by decide⟩

/-- **C8 (amended)** Length-prefix invariant of the ADIF builders: in
the standalone relay's `buildADIFRecord` every emitted field carries
its value's actual length and the record ends with `<EOR>`; in the
orchestrator's `buildADIFString` the `qso_date` and `time_on` length
texts are hard-coded to 8 and 6, so every emitted field passes the
length check exactly when those two values have lengths 8 and 6, and
the terminator is the lowercase `<eor>`. -/
theorem adif_builders_length_invariant
    (callsign dateStr timeStr freqStr mode rstSent rstReceived
      myCallsign parkReference comment : String)
    (q : HRDQso) (h8 : q.qso_date.length = 8) (h6 : q.time_on.length = 6) :
    (∀ s ∈ buildADIFRecordFields callsign dateStr timeStr freqStr mode rstSent
        rstReceived myCallsign parkReference comment, checkField s = true) ∧
    buildADIFRecord callsign dateStr timeStr freqStr mode rstSent rstReceived
        myCallsign parkReference comment =
      (buildADIFRecordFields callsign dateStr timeStr freqStr mode rstSent
        rstReceived myCallsign parkReference comment).flatten ++ "<EOR>".toList ∧
    (∀ s ∈ buildADIFFields q, checkField s = true ∨ s = "<eor>".toList) ∧
    (buildADIFFields q).getLast? = some ("<eor>".toList) := by
  have h8l : q.qso_date.toList.length = 8 := h8
  have h6l : q.time_on.toList.length = 6 := h6
  have e8 : litField "qso_date".toList ['8'] q.qso_date.toList =
      fieldStr "qso_date".toList q.qso_date.toList := by
    simp only [fieldStr, h8l]
    congr 1
  have e6 : litField "time_on".toList ['6'] q.time_on.toList =
      fieldStr "time_on".toList q.time_on.toList := by
    simp only [fieldStr, h6l]
    congr 1
  refine ⟨?_, rfl, ?_, ?_⟩
  · intro s hs
    simp only [buildADIFRecordFields, List.mem_append] at hs
    rcases hs with ((((((((((h | h) | h) | h) | h) | h) | h) | h) | h) | h) | h)
    · exact mem_optField _ _ (by decide) (by decide) s h
    · exact mem_optField _ _ (by decide) (by decide) s h
    · exact mem_optField _ _ (by decide) (by decide) s h
    · exact mem_optField _ _ (by decide) (by decide) s h
    · exact mem_optField _ _ (by decide) (by decide) s h
    · exact mem_optField _ _ (by decide) (by decide) s h
    · exact mem_optField _ _ (by decide) (by decide) s h
    · exact mem_optField _ _ (by decide) (by decide) s h
    · split at h
      · rcases List.mem_append.mp h with h2 | h2
        · exact mem_optField _ _ (by decide) (by decide) s h2
        · exact mem_optField _ _ (by decide) (by decide) s h2
      · simp at h
    · split at h
      · rcases List.mem_append.mp h with h2 | h2
        · exact mem_optField _ _ (by decide) (by decide) s h2
        · exact mem_optField _ _ (by decide) (by decide) s h2
      · simp at h
    · exact mem_optField _ _ (by decide) (by decide) s h
  · intro s hs
    simp only [buildADIFFields, List.mem_append, List.mem_cons,
      List.mem_singleton, List.not_mem_nil, or_false] at hs
    rcases hs with ((((rfl | rfl | rfl | rfl | rfl | rfl | rfl | rfl) | h) | h) | h) | rfl
    · exact Or.inl (checkField_fieldStr _ _ (by decide) (by decide))
    · rw [e8]
      exact Or.inl (checkField_fieldStr _ _ (by decide) (by decide))
    · rw [e6]
      exact Or.inl (checkField_fieldStr _ _ (by decide) (by decide))
    · exact Or.inl (checkField_fieldStr _ _ (by decide) (by decide))
    · exact Or.inl (checkField_fieldStr _ _ (by decide) (by decide))
    · exact Or.inl (checkField_fieldStr _ _ (by decide) (by decide))
    · exact Or.inl (checkField_fieldStr _ _ (by decide) (by decide))
    · exact Or.inl (checkField_fieldStr _ _ (by decide) (by decide))
    · split at h
      · rcases List.mem_cons.mp h with rfl | h2
        · exact Or.inl (checkField_fieldStr _ _ (by decide) (by decide))
        · simp only [List.mem_singleton] at h2
          subst h2
          exact Or.inl (checkField_fieldStr _ _ (by decide) (by decide))
      · simp at h
    · split at h
      · rcases List.mem_cons.mp h with rfl | h2
        · exact Or.inl (checkField_fieldStr _ _ (by decide) (by decide))
        · simp only [List.mem_singleton] at h2
          subst h2
          exact Or.inl (checkField_fieldStr _ _ (by decide) (by decide))
      · simp at h
    · split at h
      · simp only [List.mem_singleton] at h
        subst h
        exact Or.inl (checkField_fieldStr _ _ (by decide) (by decide))
      · simp at h
    · exact Or.inr rfl
  · simp only [buildADIFFields]
    rw [List.getLast?_concat]

/-- Witness for the amended C8 at a concrete contact record. -/
theorem adif_builders_length_invariant_witness :
    (∀ s ∈ buildADIFRecordFields "K1ABC" "20240101" "010203" "14.100000" "SSB"
        "59" "59" "W1AW" "US-0001" "note", checkField s = true) ∧
    buildADIFRecord "K1ABC" "20240101" "010203" "14.100000" "SSB"
        "59" "59" "W1AW" "US-0001" "note" =
      (buildADIFRecordFields "K1ABC" "20240101" "010203" "14.100000" "SSB"
        "59" "59" "W1AW" "US-0001" "note").flatten ++ "<EOR>".toList ∧
    (∀ s ∈ buildADIFFields ⟨"K1ABC", "20240101", "010203", "20m", "SSB", "14.1",
        "59", "59", "POTA", "US-0001", "POTA", "US-0001", "note"⟩,
      checkField s = true ∨ s = "<eor>".toList) ∧
    (buildADIFFields ⟨"K1ABC", "20240101", "010203", "20m", "SSB", "14.1",
        "59", "59", "POTA", "US-0001", "POTA", "US-0001", "note"⟩).getLast? =
      some ("<eor>".toList) :=
  adif_builders_length_invariant "K1ABC" "20240101" "010203" "14.100000" "SSB"
    "59" "59" "W1AW" "US-0001" "note"
    ⟨"K1ABC", "20240101", "010203", "20m", "SSB", "14.1",
      "59", "59", "POTA", "US-0001", "POTA", "US-0001", "note"⟩
    (by decide) (by decide)

/-! ## FLRIG XML-RPC response parser

`parseXMLRPC` applies the regex
`<value>(?:<[^>]+>)?([^<]+)` to the response text and returns the
first capture, or null (`none`) when nothing matches.  The scan below
implements exactly that leftmost-first match: at each position, the
literal `<value>`, then optionally one complete tag, then a non-empty
run of characters up to the next `<`. -/

/-- Match `<[^>]+>` at the head: one tag with a non-empty body. -/
def xmlTagMatch : List Char → Option (List Char)
  | c :: rest =>
    if c = '<' then
      let inner := rest.takeWhile (fun x => x != '>')
      if inner.isEmpty then none
      else
        match rest.dropWhile (fun x => x != '>') with
        | c2 :: rest2 => if c2 = '>' then some rest2 else none
        | [] => none
    else none
  | [] => none

/-- Match `[^<]+` at the head: the non-empty captured text. -/
def xmlTextMatch (cs : List Char) : Option (List Char) :=
  let t := cs.takeWhile (fun x => x != '<')
  if t.isEmpty then none else some t

/-- Try the whole pattern anchored at the current position: literal
`<value>`, then the greedy optional tag (fall back to no tag when the
text fails after it), then the captured text. -/
def valueMatchAt (cs : List Char) : Option (List Char) :=
  if cs.take 7 = "<value>".toList then
    let rest := cs.drop 7
    match xmlTagMatch rest with
    | some rest2 =>
      match xmlTextMatch rest2 with
      | some t => some t
      | none => xmlTextMatch rest
    | none => xmlTextMatch rest
  else none

/-- The unanchored leftmost search of `String.prototype.match`,
returning the first capture group, and `null` (`none`) when the
pattern matches nowhere. -/
def parseXMLRPC : List Char → Option (List Char)
  | [] => none
  | c :: rest =>
    match valueMatchAt (c :: rest) with
    | some t => some t
    | none => parseXMLRPC rest

/-- A standard XML-RPC fault response, as FLRIG returns for an unknown
method or bad parameters. -/
def xmlFaultResponse : String :=
  "<methodResponse><fault><value><struct><member><name>faultCode</name><value><int>4</int></value></member><member><name>faultString</name><value><string>Too many parameters.</string></value></member></struct></value></fault></methodResponse>"

/-- A single-scalar XML-RPC response, the shape the client expects. -/
def xmlScalarResponse : String :=
  "<methodResponse><params><param><value><double>14250000.000000</double></value></param></params></methodResponse>"

/-- An XML-RPC response with no value element at all. -/
def xmlEmptyResponse : String := "<methodResponse></methodResponse>"

/-- **C9 counterexample** On a fault response the minimal parser does
not fail: it silently returns the text "4" extracted from the
faultCode value buried in the fault struct, and the client resolves
that as a success. -/
theorem xmlrpc_fault_not_detected :
    parseXMLRPC xmlFaultResponse.toList = some ['4'] := by decide

/-- **C9 (amended)** The minimal parser accepts the first
`<value>`-and-text pattern anywhere in the response: on a single
scalar response it returns the scalar text, on a fault response it
silently returns the first scalar inside the fault structure (the
faultCode digits) instead of an error, and it returns null only when
no such pattern occurs anywhere. -/
theorem xmlrpc_parser_behavior :
    parseXMLRPC xmlScalarResponse.toList = some "14250000.000000".toList ∧
    parseXMLRPC xmlFaultResponse.toList = some "4".toList ∧
    parseXMLRPC xmlEmptyResponse.toList = none := by
  refine ⟨by decide, by decide, by decide⟩
